import Mathlib

/-!
Verification of the normalization-and-scoring pipeline of the uiux-job-radar
repository, shallowly embedded in Lean 4.

Embedded modules:
- src/pipeline/score.py    : rule-based 0-100 scoring
- src/pipeline/normalize.py: field inference, skill extraction, compensation regex
- src/pipeline/llm_score.py: external-model rescoring overlay (response modelled
  at the post-JSON-parsing level)
- src/cli.py               : orchestration (process_jobs, sort and truncate)

Modelling conventions:
- Python str is List Char (via String.data); the substring operator "in" is
  contains_sub; str.lower() is ASCII lowering (identity on the CJK characters
  occurring in the tables, exactly as in CPython for these inputs);
  str.strip() strips the whitespace characters of py_space.
- The three compensation regexes are represented as Atom lists interpreted by a
  backtracking matcher (match_atoms / re_search) implementing re.search
  semantics: leftmost start position wins, greedy quantifiers with
  backtracking.  The backslash-d class is modelled as ASCII digits and
  backslash-s as py_space, which agree with Python on every string considered
  here.
- datetime.date values are opaque: posted_date is Option Nat (only passed
  through by the pipeline, never inspected).
- The anthropic call plus json.loads are modelled as a client function
  RawJob to Except String (Option LLMFields): Except.error is a raised
  exception, Option.none a JSONDecodeError, and LLMFields the parsed JSON
  object with each expected key optional (dict.get semantics).  The debug-only
  raw_response field is omitted.
-/

namespace JobRadar

/-- Whitespace class used for Python str.strip and the regex class backslash-s
(ASCII whitespace plus the ideographic space, the only whitespace characters
relevant to the embedded tables and inputs). -/
def py_space (c : Char) : Bool :=
  c = ' ' || c = '\t' || c = '\n' || c = '\r' || c = '\x0b' || c = '\x0c' || c = '　'

/-- ASCII digit, modelling the regex class backslash-d on the inputs considered. -/
def is_digit_ch (c : Char) : Bool := c.isDigit

/-- Range-separator glyph class of the compensation regexes. -/
def is_dash_ch (c : Char) : Bool :=
  c = '〜' || c = '~' || c = '～' || c = 'ー' || c = '−' || c = '-'

/-- Decimal value of a digit string, modelling Python int() on a captured group. -/
def digits_val (cs : List Char) : Nat :=
  cs.foldl (fun n c => n * 10 + (c.toNat - '0'.toNat)) 0

/-- Python str.lower(), ASCII case folding (identity on CJK characters). -/
def str_lower (cs : List Char) : List Char := cs.map Char.toLower

/-- Python substring test: needle in hay. -/
def contains_sub (hay needle : List Char) : Bool :=
  match hay with
  | [] => needle.isPrefixOf []
  | _ :: t => needle.isPrefixOf hay || contains_sub t needle

/-- Python str.strip(): remove leading and trailing whitespace. -/
def py_strip (s : String) : String :=
  String.mk ((((s.data.dropWhile py_space).reverse).dropWhile py_space).reverse)

/-- One syntactic element of a compensation regex: a literal, the pattern
backslash-s star, the dash character class, an optional single character, or a
greedy capturing group of lo to hi digits. -/
inductive Atom where
  | lit (cs : List Char)
  | ws
  | dash
  | opt (c : Char)
  | digits (lo hi : Nat)

/-- Greedy match of a digit capturing group: try the longest admissible digit
prefix first and backtrack through shorter lengths down to lo, running the
continuation on the remaining text. -/
def go_digits (cont : List Char → Option (List Nat)) (s : List Char) (lo : Nat) :
    Nat → Option (List Nat)
  | 0 => none
  | Nat.succ len =>
      if Nat.succ len < lo then none
      else if Nat.succ len ≤ s.length && (s.take (Nat.succ len)).all is_digit_ch then
        match cont (s.drop (Nat.succ len)) with
        | some gs => some (digits_val (s.take (Nat.succ len)) :: gs)
        | none => go_digits cont s lo len
      else go_digits cont s lo len

/-- Backtracking matcher for a regex (an Atom list) anchored at the start of
the text, returning the captured groups of the first successful alternative in
greedy order; match need not consume the whole text. -/
def match_atoms : List Atom → List Char → Option (List Nat)
  | [], _ => some []
  | Atom.lit l :: rest, s =>
      if l.isPrefixOf s then match_atoms rest (s.drop l.length) else none
  | Atom.ws :: rest, s => match_atoms rest (s.dropWhile py_space)
  | Atom.dash :: rest, s =>
      match s with
      | [] => none
      | c :: s2 => if is_dash_ch c then match_atoms rest s2 else none
  | Atom.opt c :: rest, s =>
      match s with
      | [] => match_atoms rest []
      | c2 :: s2 =>
          if c2 = c then
            match match_atoms rest s2 with
            | some gs => some gs
            | none => match_atoms rest s
          else match_atoms rest s
  | Atom.digits lo hi :: rest, s => go_digits (fun t => match_atoms rest t) s lo hi

/-- re.search semantics: try the pattern at every start position, leftmost
first. -/
def re_search (p : List Atom) : List Char → Option (List Nat)
  | [] => match_atoms p []
  | c :: s2 =>
      match match_atoms p (c :: s2) with
      | some gs => some gs
      | none => re_search p s2

/-! Data model (src/models.py). -/

/-- RawJob of src/models.py.  posted_date is an opaque optional date. -/
structure RawJob where
  source : String
  company_name : String
  job_title : String
  url : String
  posted_date : Option Nat
  description : String
  location : String
  employment_type : String
  raw_html : String
deriving DecidableEq

/-- NormJob of src/models.py. -/
structure NormJob where
  source : String
  company_name : String
  job_title : String
  url : String
  posted_date : Option Nat
  description : String
  location : String
  employment_type : String
  score : Int
  skills : List String
deriving DecidableEq

/-! Rule Score Engine (src/pipeline/score.py). -/

/-- TITLE_POSITIVE_KEYWORDS of score.py, in declaration order. -/
def TITLE_POSITIVE_KEYWORDS : List (String × Int) :=
  [("UIデザイナー", 30), ("UXデザイナー", 30), ("UI/UXデザイナー", 35),
   ("プロダクトデザイナー", 30), ("UXリサーチャー", 25), ("デザインマネージャー", 20),
   ("デザインリード", 20), ("シニアデザイナー", 15), ("デザイナー", 10)]

/-- SKILL_POSITIVE_KEYWORDS of score.py, in declaration order. -/
def SKILL_POSITIVE_KEYWORDS : List (String × Int) :=
  [("Figma", 15), ("デザインシステム", 12), ("UXリサーチ", 10), ("ユーザーインタビュー", 8),
   ("プロトタイピング", 8), ("ユーザビリティ", 8), ("ペルソナ", 5), ("カスタマージャーニー", 5),
   ("Adobe XD", 5), ("Sketch", 5), ("InVision", 3), ("Zeplin", 3)]

/-- EMPLOYMENT_TYPE_SCORES of score.py, in declaration order. -/
def EMPLOYMENT_TYPE_SCORES : List (String × Int) :=
  [("業務委託", 10), ("契約社員", 5), ("正社員", 0)]

/-- REMOTE_POSITIVE_KEYWORDS of score.py, in declaration order. -/
def REMOTE_POSITIVE_KEYWORDS : List (String × Int) :=
  [("フルリモート", 8), ("full_remote", 8), ("リモート可", 5), ("hybrid", 3), ("在宅勤務", 3)]

/-- NEGATIVE_KEYWORDS of score.py, in declaration order. -/
def NEGATIVE_KEYWORDS : List (String × Int) :=
  [("バナー", -15), ("広告デザイン", -15), ("グラフィックデザイナー", -12), ("DTP", -10),
   ("印刷", -8), ("チラシ", -8), ("LP制作", -5), ("TypeScript", -5),
   ("フロントエンド実装", -5), ("コーディング", -5), ("マークアップ", -3)]

def SCORE_MIN : Int := 0

def SCORE_MAX : Int := 100

def BASE_SCORE : Int := 20

/-- Loop body of _match_keywords: fold over the keyword table carrying the
accumulated score and the set of already-matched keywords. -/
def match_keywords_go (text_lower : List Char) :
    List (String × Int) → Int → List String → Int
  | [], score, _ => score
  | (kw, pts) :: rest, score, matched =>
      if contains_sub text_lower (str_lower kw.data) && !(decide (kw ∈ matched)) then
        match_keywords_go text_lower rest (score + pts) (kw :: matched)
      else
        match_keywords_go text_lower rest score matched

/-- _match_keywords of score.py: case-insensitive additive keyword matching,
each keyword contributing at most once. -/
def _match_keywords (text : String) (keywords : List (String × Int)) : Int :=
  match_keywords_go (str_lower text.data) keywords 0 []

/-- Loop body of _check_remote: first matching entry wins, no match gives 0. -/
def check_remote_go (combined : List Char) : List (String × Int) → Int
  | [] => 0
  | (kw, pts) :: rest =>
      if contains_sub combined (str_lower kw.data) then pts else check_remote_go combined rest

/-- _check_remote of score.py over location and description. -/
def _check_remote (location description : String) : Int :=
  check_remote_go (str_lower ((location ++ " " ++ description)).data) REMOTE_POSITIVE_KEYWORDS

/-- Loop body of _check_employment_type: case-sensitive substring lookup,
first match wins, no match gives 0. -/
def check_employment_go (employment_type : String) : List (String × Int) → Int
  | [] => 0
  | (t, pts) :: rest =>
      if contains_sub employment_type.data t.data then pts else check_employment_go employment_type rest

/-- _check_employment_type of score.py. -/
def _check_employment_type (employment_type : String) : Int :=
  check_employment_go employment_type EMPLOYMENT_TYPE_SCORES

/-- calculate_score of score.py: base score plus title, skill, employment,
remote and negative contributions, clipped to the range SCORE_MIN to
SCORE_MAX. -/
def calculate_score (job : RawJob) : Int :=
  let s1 := BASE_SCORE + _match_keywords job.job_title TITLE_POSITIVE_KEYWORDS
  let combined := job.job_title ++ " " ++ job.description
  let s2 := s1 + _match_keywords combined SKILL_POSITIVE_KEYWORDS
  let s3 := s2 + _check_employment_type job.employment_type
  let s4 := s3 + _check_remote job.location job.description
  let s5 := s4 + _match_keywords combined NEGATIVE_KEYWORDS
  max SCORE_MIN (min SCORE_MAX s5)

/-! Field Inference Normalizer (src/pipeline/normalize.py). -/

/-- SKILL_DICTIONARY of normalize.py, in declaration order. -/
def SKILL_DICTIONARY : List (String × List String) :=
  [("Figma", ["figma", "フィグマ"]),
   ("Adobe XD", ["adobe xd", "adobexd", "xd"]),
   ("Sketch", ["sketch", "スケッチ"]),
   ("デザインシステム", ["デザインシステム", "design system", "designsystem"]),
   ("UXリサーチ", ["uxリサーチ", "ux research", "uxresearch", "ユーザーリサーチ"]),
   ("ユーザーインタビュー", ["ユーザーインタビュー", "user interview", "ユーザインタビュー"]),
   ("プロトタイピング", ["プロトタイピング", "prototyping", "プロトタイプ"]),
   ("ユーザビリティテスト", ["ユーザビリティテスト", "usability test", "ユーザビリティ"]),
   ("ペルソナ", ["ペルソナ", "persona"]),
   ("カスタマージャーニー", ["カスタマージャーニー", "customer journey", "ジャーニーマップ"]),
   ("Webデザイン", ["webデザイン", "ウェブデザイン", "web design"]),
   ("モバイルアプリデザイン", ["アプリデザイン", "モバイルデザイン", "app design", "ios design", "android design"]),
   ("InVision", ["invision", "インビジョン"]),
   ("Zeplin", ["zeplin", "ゼプリン"]),
   ("Photoshop", ["photoshop", "フォトショップ", "フォトショ"]),
   ("Illustrator", ["illustrator", "イラストレーター", "イラレ"])]

/-- EMPLOYMENT_TYPE_PATTERNS of normalize.py, in declaration order. -/
def EMPLOYMENT_TYPE_PATTERNS : List (String × List String) :=
  [("正社員", ["正社員", "正規雇用", "permanent"]),
   ("契約社員", ["契約社員", "有期雇用", "contract"]),
   ("業務委託", ["業務委託", "フリーランス", "freelance", "委託"]),
   ("派遣", ["派遣", "派遣社員"]),
   ("アルバイト", ["アルバイト", "パート", "part-time"]),
   ("インターン", ["インターン", "intern"])]

/-- REMOTE_TYPE_PATTERNS of normalize.py, in declaration order. -/
def REMOTE_TYPE_PATTERNS : List (String × List String) :=
  [("full_remote", ["フルリモート", "full remote", "fullremote", "完全リモート", "full_remote"]),
   ("hybrid", ["ハイブリッド", "hybrid", "週2出社", "週3出社", "リモート併用", "一部リモート"]),
   ("remote_ok", ["リモート可", "リモートワーク可", "在宅勤務可", "テレワーク可"]),
   ("office", ["出社", "オフィス勤務", "常駐", "オンサイト"])]

/-- The uiux entry of CATEGORY_KEYWORDS of normalize.py. -/
def UIUX_KEYWORDS : List String :=
  ["uiデザイナー", "uxデザイナー", "ui/uxデザイナー", "プロダクトデザイナー",
   "uxリサーチャー", "デザインマネージャー", "uiux", "ui/ux"]

/-- The graphic entry of CATEGORY_KEYWORDS of normalize.py. -/
def GRAPHIC_KEYWORDS : List String :=
  ["グラフィックデザイナー", "グラフィック", "バナー", "広告デザイン",
   "dtp", "印刷", "チラシ", "ポスター", "パッケージデザイン"]

/-- The frontend_like entry of CATEGORY_KEYWORDS of normalize.py. -/
def FRONTEND_LIKE_KEYWORDS : List String :=
  ["フロントエンド", "frontend", "マークアップ", "コーダー",
   "html/css", "webコーダー", "uiエンジニア"]

/-- CATEGORY_KEYWORDS of normalize.py, in the priority order uiux, graphic,
frontend_like in which _infer_category iterates. -/
def CATEGORY_KEYWORDS : List (String × List String) :=
  [("uiux", UIUX_KEYWORDS), ("graphic", GRAPHIC_KEYWORDS), ("frontend_like", FRONTEND_LIKE_KEYWORDS)]

/-- First compensation regex of COMP_PATTERNS (annual range with a mandatory
nenshu prefix, three-to-four-digit bounds). -/
def COMP_PAT1 : List Atom :=
  [Atom.lit ['年', '収'], Atom.ws, Atom.digits 3 4, Atom.ws, Atom.opt '万', Atom.ws,
   Atom.dash, Atom.ws, Atom.digits 3 4, Atom.ws, Atom.lit ['万']]

/-- Second compensation regex of COMP_PATTERNS (bare range of
three-to-four-digit amounts in units of ten thousand). -/
def COMP_PAT2 : List Atom :=
  [Atom.digits 3 4, Atom.ws, Atom.lit ['万'], Atom.opt '円', Atom.ws,
   Atom.dash, Atom.ws, Atom.digits 3 4, Atom.ws, Atom.lit ['万'], Atom.opt '円']

/-- Third compensation regex of COMP_PATTERNS (monthly range,
two-to-three-digit bounds). -/
def COMP_PAT3 : List Atom :=
  [Atom.lit ['月'], Atom.opt '収', Atom.ws, Atom.digits 2 3, Atom.ws, Atom.opt '万', Atom.ws,
   Atom.dash, Atom.ws, Atom.digits 2 3, Atom.ws, Atom.lit ['万']]

/-- COMP_PATTERNS of normalize.py in declaration order.  The Bool is the value
of the monthly test of _extract_compensation on the pattern source string (the
test whether the pattern text contains the month character), true exactly for
the third pattern. -/
def COMP_PATTERNS : List (List Atom × Bool) :=
  [(COMP_PAT1, false), (COMP_PAT2, false), (COMP_PAT3, true)]

/-- Loop body of _extract_skills: walk the skill dictionary in declaration
order, appending the canonical label when any variant occurs in the lowered
text and the label was not already collected. -/
def extract_skills_go (text_lower : List Char) :
    List (String × List String) → List String → List String
  | [], matched => matched
  | (name, pats) :: rest, matched =>
      if pats.any (fun p => contains_sub text_lower (str_lower p.data)) then
        extract_skills_go text_lower rest
          (if name ∈ matched then matched else matched ++ [name])
      else extract_skills_go text_lower rest matched

/-- _extract_skills of normalize.py. -/
def _extract_skills (text : String) : List String :=
  extract_skills_go (str_lower text.data) SKILL_DICTIONARY []

/-- Shared loop of the three table-based inference functions: first label any
of whose (lowered) variant phrases occurs in the combined lowered text. -/
def scan_tables (combined : List Char) : List (String × List String) → Option String
  | [] => none
  | (label, pats) :: rest =>
      if pats.any (fun p => contains_sub combined (str_lower p.data)) then some label
      else scan_tables combined rest

/-- _infer_employment_type of normalize.py: table scan over the raw employment
type concatenated with the description; fallback is the raw string when
non-empty and the sentinel 不明 when empty. -/
def _infer_employment_type (raw_type description : String) : String :=
  match scan_tables (str_lower ((raw_type ++ " " ++ description)).data) EMPLOYMENT_TYPE_PATTERNS with
  | some t => t
  | none => if raw_type = "" then "不明" else raw_type

/-- _infer_remote_type of normalize.py: table scan over location and
description; fallback unknown. -/
def _infer_remote_type (location description : String) : String :=
  match scan_tables (str_lower ((location ++ " " ++ description)).data) REMOTE_TYPE_PATTERNS with
  | some t => t
  | none => "unknown"

/-- _infer_category of normalize.py: table scan over job title and description
in the priority order of CATEGORY_KEYWORDS; fallback other. -/
def _infer_category (job_title description : String) : String :=
  match scan_tables (str_lower ((job_title ++ " " ++ description)).data) CATEGORY_KEYWORDS with
  | some c => c
  | none => "other"

/-- Monthly-to-annual conversion applied to a captured value when the matched
pattern is the monthly one. -/
def comp_adjust (monthly : Bool) (v : Nat) : Nat := if monthly then v * 12 else v

/-- Loop body of _extract_compensation: apply the patterns in declaration
order; on a match multiply both captured values by 12 when the pattern is the
monthly one, then accept the pair only when both values lie between 100 and
3000, otherwise continue with the next pattern. -/
def extract_comp_go : List (List Atom × Bool) → List Char → Option (Nat × Nat)
  | [], _ => none
  | (pat, monthly) :: rest, d =>
      match re_search pat d with
      | some (g1 :: g2 :: _) =>
          if 100 ≤ comp_adjust monthly g1 ∧ comp_adjust monthly g1 ≤ 3000 ∧
             100 ≤ comp_adjust monthly g2 ∧ comp_adjust monthly g2 ≤ 3000 then
            some (comp_adjust monthly g1, comp_adjust monthly g2)
          else extract_comp_go rest d
      | _ => extract_comp_go rest d

/-- _extract_compensation of normalize.py; none models the Python result pair
None, None. -/
def _extract_compensation (description : String) : Option (Nat × Nat) :=
  extract_comp_go COMP_PATTERNS description.data

/-- NormalizedResult of normalize.py. -/
structure NormalizedResult where
  norm_job : NormJob
  category : String
  remote_type : String
  comp_min : Option Nat
  comp_max : Option Nat
deriving DecidableEq

/-- normalize of normalize.py: skill extraction over title and description,
NormJob assembly with stripped text fields and the caller-supplied score, plus
the three inferred classification fields and the compensation range. -/
def normalize (raw : RawJob) (score : Int) : NormalizedResult :=
  let combined_text := raw.job_title ++ " " ++ raw.description
  let skills := _extract_skills combined_text
  let norm_job : NormJob :=
    ⟨raw.source, py_strip raw.company_name, py_strip raw.job_title, py_strip raw.url,
     raw.posted_date, py_strip raw.description, py_strip raw.location,
     _infer_employment_type raw.employment_type raw.description, score, skills⟩
  let comp := _extract_compensation raw.description
  ⟨norm_job, _infer_category raw.job_title raw.description,
   _infer_remote_type raw.location raw.description,
   comp.map Prod.fst, comp.map Prod.snd⟩

/-! Rescoring overlay (src/pipeline/llm_score.py), modelled at the level of
the parsed JSON response. -/

/-- Parsed JSON object of a model response: each of the six expected keys may
be absent (dict.get semantics in calculate_llm_score). -/
structure LLMFields where
  dispatch_score : Option Int
  urgency_score : Option Int
  skill_match_score : Option Int
  total_score : Option Int
  reason : Option String
  tags : Option (List String)
deriving DecidableEq

/-- LLMScoreResult of llm_score.py (raw_response debug field omitted). -/
structure LLMScoreResult where
  dispatch_score : Int
  urgency_score : Int
  skill_match_score : Int
  total_score : Int
  reason : String
  tags : List String
deriving DecidableEq

/-- External collaborator: one network call plus json.loads.  Except.error is
a raised exception, none a JSONDecodeError on the response text. -/
def LLMClient : Type := RawJob → Except String (Option LLMFields)

/-- _parse_llm_response of llm_score.py: an unparseable response falls back to
the all-50 default dictionary with the parse-error reason and empty tags. -/
def _parse_llm_response : Option LLMFields → LLMFields
  | none => ⟨some 50, some 50, some 50, some 50, some "解析エラー", some []⟩
  | some d => d

/-- Construction of the LLMScoreResult from the parsed dictionary in
calculate_llm_score: each sub-score defaults to 50, the reason to the empty
string and the tags to the empty list. -/
def llm_result_of_parsed (p : LLMFields) : LLMScoreResult :=
  ⟨p.dispatch_score.getD 50, p.urgency_score.getD 50, p.skill_match_score.getD 50,
   p.total_score.getD 50, p.reason.getD "", p.tags.getD []⟩

/-- calculate_llm_score of llm_score.py: issue the call and build the result;
an exception from the call propagates to the caller. -/
def calculate_llm_score (job : RawJob) (client : LLMClient) : Except String LLMScoreResult :=
  match client job with
  | Except.ok parsed => Except.ok (llm_result_of_parsed (_parse_llm_response parsed))
  | Except.error e => Except.error e

/-- Slice jobs to the configured limit in calculate_llm_score_batch: Python
takes jobs sliced to limit when limit is truthy, the whole list otherwise (a
limit of 0 is falsy and disables the slice). -/
def llm_batch_targets (jobs : List RawJob) (limit : Option Nat) : List RawJob :=
  match limit with
  | some l => if l ≠ 0 then jobs.take l else jobs
  | none => jobs

/-- calculate_llm_score_batch of llm_score.py: score each target job, catching
any exception per record and recording the all-zero bundle with the API-error
reason in its place. -/
def calculate_llm_score_batch (jobs : List RawJob) (client : LLMClient)
    (limit : Option Nat) : List (RawJob × LLMScoreResult) :=
  (llm_batch_targets jobs limit).map (fun job =>
    match calculate_llm_score job client with
    | Except.ok r => (job, r)
    | Except.error e => (job, ⟨0, 0, 0, 0, "APIエラー: " ++ e, []⟩))

/-! Pipeline Orchestrator (src/cli.py). -/

/-- One output line of process_jobs: the normalized fields plus, when a model
rescoring succeeded for the record, its bundle (the six llm keys), in which
case score has been overwritten with the bundle total. -/
structure JobOutput where
  source : String
  company_name : String
  job_title : String
  url : String
  posted_date : Option Nat
  description : String
  location : String
  employment_type : String
  score : Int
  skills : List String
  category : String
  remote_type : String
  comp_min : Option Nat
  comp_max : Option Nat
  llm : Option LLMScoreResult
deriving DecidableEq

/-- The rescoring attempt of one loop iteration of process_jobs: run only when
the flag is set, a client exists and the record index is under the limit (a
limit of none means no bound); an exception from the call is caught and gives
none, leaving the record with its rule-based score. -/
def llm_attempt (use_llm : Bool) (client : Option LLMClient) (llm_limit : Option Nat)
    (raw : RawJob) (i : Nat) : Option LLMScoreResult :=
  if use_llm then
    match client with
    | some c =>
        if (match llm_limit with | none => true | some lim => i < lim) then
          match calculate_llm_score raw c with
          | Except.ok r => some r
          | Except.error _ => none
        else none
    | none => none
  else none

/-- The output-dictionary assembly of one loop iteration of process_jobs:
the normalized fields, and when a rescoring bundle is present the six llm
keys are added and score is overwritten with the bundle total. -/
def make_output (n : NormalizedResult) : Option LLMScoreResult → JobOutput
  | some r =>
      ⟨n.norm_job.source, n.norm_job.company_name, n.norm_job.job_title, n.norm_job.url,
       n.norm_job.posted_date, n.norm_job.description, n.norm_job.location,
       n.norm_job.employment_type, r.total_score, n.norm_job.skills,
       n.category, n.remote_type, n.comp_min, n.comp_max, some r⟩
  | none =>
      ⟨n.norm_job.source, n.norm_job.company_name, n.norm_job.job_title, n.norm_job.url,
       n.norm_job.posted_date, n.norm_job.description, n.norm_job.location,
       n.norm_job.employment_type, n.norm_job.score, n.norm_job.skills,
       n.category, n.remote_type, n.comp_min, n.comp_max, none⟩

/-- Loop of process_jobs over the enumerated raw jobs: rule score, normalize,
optional rescoring attempt, output assembly. -/
def process_jobs_go (use_llm : Bool) (client : Option LLMClient) (llm_limit : Option Nat) :
    List RawJob → Nat → List JobOutput
  | [], _ => []
  | raw :: rest, i =>
      make_output (normalize raw (calculate_score raw)) (llm_attempt use_llm client llm_limit raw i)
        :: process_jobs_go use_llm client llm_limit rest (i + 1)

/-- process_jobs of cli.py.  The client is None when LLM use is disabled, the
package is unavailable or client construction failed. -/
def process_jobs (raw_jobs : List RawJob) (use_llm : Bool) (client : Option LLMClient)
    (llm_limit : Option Nat) : List JobOutput :=
  process_jobs_go use_llm client llm_limit raw_jobs 0

/-- Stable descending insertion by score: the element goes before the first
element of strictly smaller-or-equal... precisely, before the first element
whose score it is greater than or equal to, so that equal scores keep the
earlier element first. -/
def insert_desc (x : JobOutput) : List JobOutput → List JobOutput
  | [] => [x]
  | y :: ys => if y.score ≤ x.score then x :: y :: ys else y :: insert_desc x ys

/-- Model of the Python stable sort by score with reverse order
(results.sort with the score key, reverse) in main of cli.py: insertion sort
is stable, and a stable descending sort of a list is unique. -/
def sort_results (l : List JobOutput) : List JobOutput := l.foldr insert_desc []

/-- Python slice prefix results up to n: a natural count for nonnegative n and
length minus the magnitude, clamped at zero, for negative n. -/
def py_slice_count (len : Nat) (n : Int) : Nat :=
  if 0 ≤ n then n.toNat else len - (-n).toNat

/-- Sort and truncation steps of main in cli.py: sort by descending score,
then slice to the top argument only when it is truthy (present and nonzero). -/
def main_sort_truncate (results : List JobOutput) (top : Option Int) : List JobOutput :=
  let sorted := sort_results results
  match top with
  | none => sorted
  | some n => if n ≠ 0 then sorted.take (py_slice_count sorted.length n) else sorted

/-- Concrete record with every text field empty, used in the closed concrete
instances below. -/
def empty_job : RawJob := ⟨"", "", "", "", none, "", "", "", ""⟩

/-- The pipeline output for empty_job without rescoring: base score 20 and
every inference at its fallback. -/
def empty_out : JobOutput :=
  ⟨"", "", "", "", none, "", "", "不明", 20, [], "other", "unknown", none, none, none⟩

/-- A collaborator answering a syntactically valid response whose reported
total score is 150, outside the 0 to 100 range the prompt requests. -/
def bad_client : LLMClient :=
  fun _ => Except.ok (some ⟨none, none, none, some 150, none, none⟩)

/-! General lemmas about the table-scan loops. -/

/-- The table scan returns the label of the first entry with a matching
variant: it agrees with find? on the table. -/
theorem scan_tables_eq_find (c : List Char) :
    ∀ t : List (String × List String),
      scan_tables c t =
        (t.find? (fun e => e.2.any fun p => contains_sub c (str_lower p.data))).map Prod.fst := by
  intro t
  induction t with
  | nil => rfl
  | cons hd tl ih =>
      by_cases h : (hd.2.any fun p => contains_sub c (str_lower p.data)) = true
      · simp [scan_tables, List.find?_cons_of_pos, h]
      · rw [scan_tables]
        rw [if_neg (by simpa using h), ih, List.find?_cons_of_neg]
        simpa using h

/-- The remote-bonus loop returns the point value of the first matching entry
and 0 when none matches: it agrees with find? on the keyword list. -/
theorem check_remote_go_eq_find (c : List Char) :
    ∀ L : List (String × Int),
      check_remote_go c L =
        ((L.find? (fun kp => contains_sub c (str_lower kp.1.data))).map Prod.snd).getD 0 := by
  intro L
  induction L with
  | nil => rfl
  | cons hd tl ih =>
      by_cases h : contains_sub c (str_lower hd.1.data) = true
      · simp [check_remote_go, List.find?_cons_of_pos, h]
      · rw [check_remote_go]
        rw [if_neg (by simpa using h), ih, List.find?_cons_of_neg]
        simpa using h

/-- Any pair returned by the compensation loop passed the range guard. -/
theorem extract_comp_go_bounds :
    ∀ (L : List (List Atom × Bool)) (cs : List Char) (mn mx : Nat),
      extract_comp_go L cs = some (mn, mx) →
      100 ≤ mn ∧ mn ≤ 3000 ∧ 100 ≤ mx ∧ mx ≤ 3000 := by
  intro L
  induction L with
  | nil => intro cs mn mx h; simp [extract_comp_go] at h
  | cons hd tl ih =>
      intro cs mn mx h
      obtain ⟨pat, monthly⟩ := hd
      rw [extract_comp_go] at h
      split at h
      · split at h
        · rename_i hg
          simp only [Option.some.injEq, Prod.mk.injEq] at h
          obtain ⟨ha, hb⟩ := h
          subst ha
          subst hb
          exact hg
        · exact ih cs mn mx h
      · exact ih cs mn mx h

/-- C2.  Corrected form: whenever _extract_compensation returns a pair, both
components lie in the range 100 to 3000 (the code never compares the two
against each other, so no ordering between them is guaranteed; see the
counterexample). -/
theorem c2_comp_range_amended (d : String) (mn mx : Nat)
    (h : _extract_compensation d = some (mn, mx)) :
    100 ≤ mn ∧ mn ≤ 3000 ∧ 100 ≤ mx ∧ mx ≤ 3000 :=
  extract_comp_go_bounds COMP_PATTERNS d.data mn mx h

theorem c2_comp_range_amended_witness :
    100 ≤ 500 ∧ 500 ≤ 3000 ∧ 100 ≤ 800 ∧ 800 ≤ 3000 :=
  c2_comp_range_amended "年収500万〜800万円" 500 800 (by decide)

/-- C2 counterexample: a description whose first bound exceeds the second is
extracted as-is, violating comp_min less-or-equal comp_max. -/
theorem c2_counterexample :
    _extract_compensation "年収900万〜600万" = some (900, 600) ∧ ¬ (900 ≤ 600) := by
  decide

/-- C4.  Compensation extraction on the three specified examples: an annual
range is returned as captured, a monthly range is converted by twelve, and a
range outside the validity bounds yields absent. -/
theorem c4_comp_examples :
    _extract_compensation "年収500万〜800万円" = some (500, 800)
    ∧ _extract_compensation "月収50万〜70万" = some (600, 840)
    ∧ _extract_compensation "年収50万〜80万" = none := by
  decide

/-- C10.  A monthly range with three-digit bounds is captured by the second,
annual-style pattern (tried before the monthly one): the first pattern does
not match, the second does, and the result is the captured pair without the
times-twelve monthly conversion. -/
theorem c10_monthly_as_annual :
    _extract_compensation "月収500万〜800万" = some (500, 800)
    ∧ re_search COMP_PAT1 ("月収500万〜800万").data = none
    ∧ re_search COMP_PAT2 ("月収500万〜800万").data = some [500, 800] := by
  decide

/-- C8.  The remote bonus equals the point value of the first entry of
REMOTE_POSITIVE_KEYWORDS whose keyword occurs in the lowered concatenation of
location and description, and 0 when none occurs; on a text matching three
remote phrases only the first contributes (8, not the sum 16). -/
theorem c8_remote_first_match :
    (∀ location description : String,
      _check_remote location description =
        ((REMOTE_POSITIVE_KEYWORDS.find?
            (fun kp => contains_sub (str_lower ((location ++ " " ++ description)).data)
              (str_lower kp.1.data))).map Prod.snd).getD 0)
    ∧ _check_remote "フルリモート 在宅勤務" "リモート可" = 8 := by
  constructor
  · intro location description
    exact check_remote_go_eq_find _ REMOTE_POSITIVE_KEYWORDS
  · decide

/-- C9.  Corrected form: employment-type inference returns the first category
of EMPLOYMENT_TYPE_PATTERNS any of whose variants occurs case-insensitively in
the employment-type field concatenated with the description; with no match it
returns the raw employment-type string when non-empty and the sentinel 不明
(not the literal string unknown) when empty. -/
theorem c9_employment_amended (raw_type description : String) :
    _infer_employment_type raw_type description =
      ((EMPLOYMENT_TYPE_PATTERNS.find?
          (fun e => e.2.any fun p =>
            contains_sub (str_lower ((raw_type ++ " " ++ description)).data)
              (str_lower p.data))).map Prod.fst).getD
        (if raw_type = "" then "不明" else raw_type) := by
  rw [_infer_employment_type, scan_tables_eq_find]
  cases h : (EMPLOYMENT_TYPE_PATTERNS.find?
      (fun e => e.2.any fun p =>
        contains_sub (str_lower ((raw_type ++ " " ++ description)).data)
          (str_lower p.data))) <;> simp [h]

/-- C9 counterexample: with an empty employment-type field and no matching
variant the function returns the sentinel 不明, not the literal string
unknown. -/
theorem c9_counterexample :
    _infer_employment_type "" "" = "不明" ∧ _infer_employment_type "" "" ≠ "unknown" := by
  decide

/-- C5.  Category inference scans the tables in the fixed order uiux, graphic,
frontend_like: any uiux keyword occurring in the lowered title-description
text forces the result uiux regardless of the other tables, and when no
keyword of any table occurs the result is other. -/
theorem c5_category_priority (job_title description : String) :
    ((∃ kw ∈ UIUX_KEYWORDS,
        contains_sub (str_lower ((job_title ++ " " ++ description)).data)
          (str_lower kw.data) = true) →
      _infer_category job_title description = "uiux")
    ∧ ((∀ lbl kws, (lbl, kws) ∈ CATEGORY_KEYWORDS → ∀ kw ∈ kws,
          contains_sub (str_lower ((job_title ++ " " ++ description)).data)
            (str_lower kw.data) = false) →
      _infer_category job_title description = "other") := by
  generalize hC : str_lower ((job_title ++ " " ++ description)).data = c
  constructor
  · rintro ⟨kw, hmem, hc⟩
    have hany : (UIUX_KEYWORDS.any fun p => contains_sub c (str_lower p.data)) = true :=
      List.any_eq_true.mpr ⟨kw, hmem, hc⟩
    simp only [_infer_category, hC, CATEGORY_KEYWORDS, scan_tables, hany]
    simp
  · intro h
    have h1 : (UIUX_KEYWORDS.any fun p => contains_sub c (str_lower p.data)) = false := by
      rw [List.any_eq_false]
      intro kw hkw
      simp [h "uiux" UIUX_KEYWORDS (by simp [CATEGORY_KEYWORDS]) kw hkw]
    have h2 : (GRAPHIC_KEYWORDS.any fun p => contains_sub c (str_lower p.data)) = false := by
      rw [List.any_eq_false]
      intro kw hkw
      simp [h "graphic" GRAPHIC_KEYWORDS (by simp [CATEGORY_KEYWORDS]) kw hkw]
    have h3 : (FRONTEND_LIKE_KEYWORDS.any fun p => contains_sub c (str_lower p.data)) = false := by
      rw [List.any_eq_false]
      intro kw hkw
      simp [h "frontend_like" FRONTEND_LIKE_KEYWORDS (by simp [CATEGORY_KEYWORDS]) kw hkw]
    simp only [_infer_category, hC, CATEGORY_KEYWORDS, scan_tables, h1, h2, h3]
    simp

theorem c5_category_priority_witness :
    _infer_category "UI/UXデザイナー" "バナー広告のグラフィック制作" = "uiux" :=
  (c5_category_priority "UI/UXデザイナー" "バナー広告のグラフィック制作").1
    ⟨"ui/ux", by decide, by decide⟩

/-! Skill extraction (C6). -/

/-- Characterization of the skill-extraction loop: with an accumulator
disjoint from the upcoming labels and duplicate-free labels (as in
SKILL_DICTIONARY), the loop appends, in dictionary order, exactly the labels
with at least one matching variant. -/
theorem extract_skills_go_eq (tl : List Char) :
    ∀ (L : List (String × List String)) (matched : List String),
      (∀ p ∈ L, p.1 ∉ matched) → (L.map Prod.fst).Nodup →
      extract_skills_go tl L matched =
        matched ++
          (L.filter (fun p => p.2.any fun q => contains_sub tl (str_lower q.data))).map Prod.fst := by
  intro L
  induction L with
  | nil => intro matched _ _; simp [extract_skills_go]
  | cons hd rest ih =>
      intro matched hnot hnd
      obtain ⟨name, pats⟩ := hd
      rw [List.map_cons, List.nodup_cons] at hnd
      obtain ⟨hname, hnd2⟩ := hnd
      by_cases hm : (pats.any fun q => contains_sub tl (str_lower q.data)) = true
      · have hnm : name ∉ matched := hnot (name, pats) (List.mem_cons_self _ _)
        rw [extract_skills_go, if_pos hm, if_neg hnm]
        rw [ih (matched ++ [name]) ?_ hnd2]
        · simp [List.filter_cons, hm]
        · intro p hp
          rw [List.mem_append]
          rintro (hin | hin)
          · exact hnot p (List.mem_cons_of_mem _ hp) hin
          · rw [List.mem_singleton] at hin
            have hmm2 : p.1 ∈ List.map Prod.fst rest := List.mem_map_of_mem Prod.fst hp
            rw [hin] at hmm2
            exact hname hmm2
      · rw [extract_skills_go, if_neg (by simp [hm])]
        rw [ih matched (fun p hp => hnot p (List.mem_cons_of_mem _ hp)) hnd2]
        simp [List.filter_cons, hm]

/-- C6.  The extracted skill list is exactly the canonical labels of the
dictionary entries having a matching variant, in dictionary order: hence it
holds each label at most once, is a sublist of the declared key order, and is
empty on empty text. -/
theorem c6_skills_invariants (text : String) :
    _extract_skills text =
      (SKILL_DICTIONARY.filter
        (fun p => p.2.any fun q => contains_sub (str_lower text.data) (str_lower q.data))).map
        Prod.fst
    ∧ (_extract_skills text).Nodup
    ∧ (_extract_skills text).Sublist (SKILL_DICTIONARY.map Prod.fst)
    ∧ _extract_skills "" = [] := by
  have keys_nodup : (SKILL_DICTIONARY.map Prod.fst).Nodup := by decide
  have heq : _extract_skills text =
      (SKILL_DICTIONARY.filter
        (fun p => p.2.any fun q => contains_sub (str_lower text.data) (str_lower q.data))).map
        Prod.fst := by
    rw [_extract_skills, extract_skills_go_eq _ SKILL_DICTIONARY [] (by simp) keys_nodup]
    rw [List.nil_append]
  have hsub : ((SKILL_DICTIONARY.filter
      (fun p => p.2.any fun q => contains_sub (str_lower text.data) (str_lower q.data))).map
        Prod.fst).Sublist (SKILL_DICTIONARY.map Prod.fst) :=
    List.Sublist.map Prod.fst (List.filter_sublist _)
  refine ⟨heq, ?_, ?_, by decide⟩
  · rw [heq]
    exact List.Nodup.sublist hsub keys_nodup
  · rw [heq]
    exact hsub

/-! Stable descending sort (C7). -/

/-- Descending insertion produces a permutation of consing the element. -/
theorem insert_desc_perm (x : JobOutput) :
    ∀ l : List JobOutput, List.Perm (insert_desc x l) (x :: l) := by
  intro l
  induction l with
  | nil => exact List.Perm.refl _
  | cons y ys ih =>
      rw [insert_desc]
      by_cases h : y.score ≤ x.score
      · rw [if_pos h]
      · rw [if_neg h]
        exact List.Perm.trans (List.Perm.cons y ih) (List.Perm.swap x y ys)

/-- Descending insertion preserves the descending pairwise order. -/
theorem insert_desc_pairwise (x : JobOutput) :
    ∀ l : List JobOutput,
      List.Pairwise (fun a b => b.score ≤ a.score) l →
      List.Pairwise (fun a b => b.score ≤ a.score) (insert_desc x l) := by
  intro l
  induction l with
  | nil => intro _; simp [insert_desc]
  | cons y ys ih =>
      intro hp
      rw [List.pairwise_cons] at hp
      obtain ⟨hy, hys⟩ := hp
      rw [insert_desc]
      by_cases h : y.score ≤ x.score
      · rw [if_pos h]
        rw [List.pairwise_cons]
        refine ⟨?_, ?_⟩
        · intro b hb
          rcases List.mem_cons.mp hb with rfl | hb2
          · exact h
          · exact le_trans (hy b hb2) h
        · rw [List.pairwise_cons]
          exact ⟨hy, hys⟩
      · rw [if_neg h]
        rw [List.pairwise_cons]
        refine ⟨?_, ih hys⟩
        intro b hb
        have hb3 : b ∈ x :: ys := (insert_desc_perm x ys).mem_iff.mp hb
        rcases List.mem_cons.mp hb3 with rfl | hb2
        · omega
        · exact hy b hb2

/-- Stability of descending insertion: the score-s records of the inserted
list are the inserted element (when its score is s) followed by the score-s
records of the original list. -/
theorem insert_desc_filter (x : JobOutput) (s : Int) :
    ∀ l : List JobOutput,
      (insert_desc x l).filter (fun o => o.score == s) =
        if x.score == s then x :: l.filter (fun o => o.score == s)
        else l.filter (fun o => o.score == s) := by
  intro l
  induction l with
  | nil =>
      by_cases hx : (x.score == s) = true <;>
        simp [insert_desc, List.filter, hx]
  | cons y ys ih =>
      rw [insert_desc]
      by_cases h : y.score ≤ x.score
      · rw [if_pos h]
        by_cases hx : (x.score == s) = true <;>
          simp [List.filter_cons, hx]
      · rw [if_neg h]
        rw [List.filter_cons, ih, List.filter_cons]
        by_cases hx : (x.score == s) = true
        · by_cases hy : (y.score == s) = true
          · exfalso
            have hx2 : x.score = s := by simpa using hx
            have hy2 : y.score = s := by simpa using hy
            omega
          · simp [hx, hy]
        · by_cases hy : (y.score == s) = true <;> simp [hx, hy]

/-- The sort of main is pairwise descending in score. -/
theorem sort_results_pairwise (l : List JobOutput) :
    List.Pairwise (fun a b => b.score ≤ a.score) (sort_results l) := by
  induction l with
  | nil => simp [sort_results]
  | cons a l ih => exact insert_desc_pairwise a (sort_results l) ih

/-- The sort of main is a permutation of its input. -/
theorem sort_results_perm (l : List JobOutput) : List.Perm (sort_results l) l := by
  induction l with
  | nil => exact List.Perm.refl _
  | cons a l ih =>
      exact List.Perm.trans (insert_desc_perm a (sort_results l)) (List.Perm.cons a ih)

/-- Stability of the sort of main: records of any fixed score keep their
relative input order. -/
theorem sort_results_filter (l : List JobOutput) (s : Int) :
    (sort_results l).filter (fun o => o.score == s) = l.filter (fun o => o.score == s) := by
  induction l with
  | nil => rfl
  | cons a l ih =>
      have : sort_results (a :: l) = insert_desc a (sort_results l) := rfl
      rw [this, insert_desc_filter, ih, List.filter_cons]

/-- C7.  Corrected form: the output batch of main is the stable descending
sort of the scored records (descending pairwise order, a permutation of the
input, ties keeping input order), and a supplied positive top-N truncates the
sorted batch to its first N records; a supplied top of 0 is falsy in Python
and leaves the batch untruncated (see the counterexample). -/
theorem c7_sort_amended (l : List JobOutput) (n : Int) :
    List.Pairwise (fun a b => b.score ≤ a.score) (sort_results l)
    ∧ List.Perm (sort_results l) l
    ∧ (∀ s : Int,
        (sort_results l).filter (fun o => o.score == s) = l.filter (fun o => o.score == s))
    ∧ main_sort_truncate l none = sort_results l
    ∧ (0 < n → main_sort_truncate l (some n) = (sort_results l).take n.toNat) := by
  refine ⟨sort_results_pairwise l, sort_results_perm l, fun s => sort_results_filter l s,
    rfl, ?_⟩
  intro hn
  simp only [main_sort_truncate]
  rw [if_pos (by omega : n ≠ 0), py_slice_count, if_pos (le_of_lt hn)]

theorem c7_sort_amended_witness :
    main_sort_truncate [empty_out] (some 1) = (sort_results [empty_out]).take (Int.toNat 1) :=
  (c7_sort_amended [empty_out] 1).2.2.2.2 (by decide)

/-- C7 counterexample: a supplied top-N of 0 does not truncate (the claim as
stated would make the output the first 0 records, the empty batch). -/
theorem c7_counterexample :
    main_sort_truncate [empty_out] (some 0) = [empty_out]
    ∧ ¬ (main_sort_truncate [empty_out] (some 0) =
          (sort_results [empty_out]).take (Int.toNat 0)) := by
  decide

/-! Score bounds and rescoring override (C1), failure fallbacks (C3). -/

/-- The llm field of an assembled output is exactly the rescoring attempt. -/
theorem make_output_llm (n : NormalizedResult) :
    ∀ ll : Option LLMScoreResult, (make_output n ll).llm = ll := by
  intro ll
  cases ll <;> rfl

/-- Every output of the process_jobs loop is the assembly of a normalized
record of some input with some rescoring attempt. -/
theorem process_jobs_go_mem (u : Bool) (c : Option LLMClient) (lim : Option Nat) :
    ∀ (jobs : List RawJob) (i : Nat) (out : JobOutput),
      out ∈ process_jobs_go u c lim jobs i →
      ∃ raw ll, out = make_output (normalize raw (calculate_score raw)) ll := by
  intro jobs
  induction jobs with
  | nil => intro i out h; simp [process_jobs_go] at h
  | cons raw rest ih =>
      intro i out h
      rw [process_jobs_go, List.mem_cons] at h
      rcases h with rfl | h2
      · exact ⟨raw, llm_attempt u c lim raw i, rfl⟩
      · exact ih (i + 1) out h2

/-- C1.  Corrected form: the rule score is always clipped to the range 0 to
100, and a record without a rescoring bundle carries its rule score (hence in
range); a record whose rescoring succeeded carries exactly the total score
reported by the model, which the code does not clamp (see the
counterexample). -/
theorem c1_score_range_amended :
    (∀ job : RawJob, 0 ≤ calculate_score job ∧ calculate_score job ≤ 100)
    ∧ (∀ (jobs : List RawJob) (u : Bool) (c : Option LLMClient) (lim : Option Nat)
          (out : JobOutput), out ∈ process_jobs jobs u c lim →
        (out.llm = none → 0 ≤ out.score ∧ out.score ≤ 100)
        ∧ (∀ r, out.llm = some r → out.score = r.total_score)) := by
  have hb : ∀ job : RawJob, 0 ≤ calculate_score job ∧ calculate_score job ≤ 100 := by
    intro job
    simp only [calculate_score, SCORE_MIN, SCORE_MAX]
    constructor
    · exact le_max_left 0 _
    · exact max_le (by norm_num) (min_le_left 100 _)
  refine ⟨hb, ?_⟩
  intro jobs u c lim out hmem
  obtain ⟨raw, ll, rfl⟩ := process_jobs_go_mem u c lim jobs 0 out hmem
  constructor
  · intro hllm
    rw [make_output_llm] at hllm
    subst hllm
    exact hb raw
  · intro r hllm
    rw [make_output_llm] at hllm
    subst hllm
    rfl

theorem c1_score_range_amended_witness :
    0 ≤ empty_out.score ∧ empty_out.score ≤ 100 :=
  (c1_score_range_amended.2 [empty_job] false none none empty_out (by decide)).1 (by decide)

/-- C1 counterexample: a syntactically valid model response reporting a total
score of 150 is emitted as the record score unchanged, outside 0 to 100. -/
theorem c1_counterexample :
    (process_jobs [empty_job] true (some bad_client) none).map (fun o => o.score) = [150]
    ∧ ¬ ((150 : Int) ≤ 100) := by
  decide

/-- A rescoring attempt against a collaborator that always raises yields no
bundle (the exception is caught in process_jobs). -/
theorem llm_attempt_error (e : String) (lim : Option Nat) (raw : RawJob) (i : Nat) :
    llm_attempt true (some (fun _ => Except.error e)) lim raw i = none := by
  simp [llm_attempt, calculate_llm_score]

/-- With a collaborator that always raises, the process_jobs loop produces
exactly the rule-score-only outputs. -/
theorem process_jobs_go_error (e : String) (lim : Option Nat) :
    ∀ (jobs : List RawJob) (i : Nat),
      process_jobs_go true (some (fun _ => Except.error e)) lim jobs i =
        process_jobs_go false none lim jobs i := by
  intro jobs
  induction jobs with
  | nil => intro i; rfl
  | cons raw rest ih =>
      intro i
      rw [process_jobs_go, process_jobs_go, llm_attempt_error, ih]
      rfl

/-- C3.  Corrected form: an unparseable response falls back to the midpoint
bundle (all sub-scores 50, empty tags, the parse-error rationale); a failed
external call is caught, and its fallback is the all-zero bundle with the
API-error rationale in calculate_llm_score_batch, while in process_jobs the
record simply keeps its rule-based score; in both paths every record of the
batch still appears and normalization completes. -/
theorem c3_failure_fallback_amended (jobs : List RawJob) (e : String) (lim : Option Nat) :
    _parse_llm_response none =
      ⟨some 50, some 50, some 50, some 50, some "解析エラー", some []⟩
    ∧ (calculate_llm_score_batch jobs (fun _ => Except.error e) lim).map Prod.fst =
        llm_batch_targets jobs lim
    ∧ (calculate_llm_score_batch jobs (fun _ => Except.error e) lim).map Prod.snd =
        (llm_batch_targets jobs lim).map
          (fun _ => (⟨0, 0, 0, 0, "APIエラー: " ++ e, []⟩ : LLMScoreResult))
    ∧ process_jobs jobs true (some (fun _ => Except.error e)) lim =
        process_jobs jobs false none lim := by
  refine ⟨rfl, ?_, ?_, ?_⟩
  · rw [calculate_llm_score_batch]
    generalize llm_batch_targets jobs lim = tgt
    induction tgt with
    | nil => rfl
    | cons a t ih =>
        simp only [calculate_llm_score] at ih ⊢
        simp only [List.map_cons]
        rw [ih]
  · rw [calculate_llm_score_batch]
    generalize llm_batch_targets jobs lim = tgt
    induction tgt with
    | nil => rfl
    | cons a t ih =>
        simp only [calculate_llm_score] at ih ⊢
        simp only [List.map_cons]
        rw [ih]
  · rw [process_jobs, process_jobs]
    exact process_jobs_go_error e lim jobs 0

/-- C3 counterexample: the fallback bundle recorded by the batch scorer for a
failed call has its sub-scores at 0, not at the midpoint 50. -/
theorem c3_counterexample :
    (calculate_llm_score_batch [empty_job] (fun _ => Except.error "boom") none).map
        (fun p => p.2.dispatch_score) = [0]
    ∧ ((0 : Int) ≠ 50) := by
  decide

end JobRadar
